import Mathlib

/-!
Verification of the Local Command Protocol (`quarkchain/local.py`).

Shallow embedding conventions:
* byte strings are `List Nat` with every entry `< 256`;
* Python machine behaviour that lives outside this repository (the generic
  `Serializable` codec of `quarkchain.core`, `statistics.mean`, `json` parsing,
  the state engine) is modelled from the spec where the spec describes it, and
  is otherwise kept abstract as structure fields / function parameters;
* Python floats (`time.time()`, `statistics.mean`) are modelled as rationals;
  no claim depends on float rounding;
* JSON payloads are modelled at the abstract-syntax level (`JVal`): the wire
  payload of the JSON-RPC op is `json.dumps` of the returned `JVal`, and
  `json.dumps` is injective on this AST, so field-level claims are settled on
  the AST.
-/

/-- Byte strings: lists of naturals; a well-formed byte is `< 256`. -/
abbrev Bytes := List Nat

/-- Result of running a piece of Python code that may raise an exception which
the surrounding code does not catch (`exn`). -/
inductive PyResult (α : Type) where
  | ok (a : α)
  | exn
deriving DecidableEq

/-- First-match association-list lookup, modelling Python dict / attribute
lookup (all field-name lists in this file are duplicate-free). -/
def pyLookup {α : Type} : List (String × α) → String → Option α
  | [], _ => none
  | (k, v) :: fs, key => if k = key then some v else pyLookup fs key

/-! ## Wire-schema primitives (§4.1)

Modelled from the spec: the generic `Serializable` machinery lives in
`quarkchain.core`, which is not under `src/`; §4.1 fixes the encoding of the
primitives (big-endian fixed-width unsigned integers, 32-bit-length-prefixed
byte blobs and lists, concatenation of fields in declared order, decode
failure when the bytes do not cover the declared fields). -/

/-- Decode one unsigned byte. -/
def uint8Decode : Bytes → Except Unit (Nat × Bytes)
  | [] => .error ()
  | b :: rest => if b < 256 then .ok (b, rest) else .error ()

/-- Encode one unsigned byte. -/
def uint8Encode (v : Nat) : Except Unit Bytes :=
  if v < 256 then .ok [v] else .error ()

/-- Decode a big-endian unsigned 32-bit integer. -/
def uint32Decode : Bytes → Except Unit (Nat × Bytes)
  | b0 :: b1 :: b2 :: b3 :: rest =>
    if b0 < 256 ∧ b1 < 256 ∧ b2 < 256 ∧ b3 < 256 then
      .ok (((b0 * 256 + b1) * 256 + b2) * 256 + b3, rest)
    else .error ()
  | _ => .error ()

/-- Encode a big-endian unsigned 32-bit integer. -/
def uint32Encode (v : Nat) : Except Unit Bytes :=
  if v < 2 ^ 32 then
    .ok [v / 2 ^ 24 % 256, v / 2 ^ 16 % 256, v / 2 ^ 8 % 256, v % 256]
  else .error ()

/-- Modelled from the spec: a Python integer is encodable as a `uint32` wire
field exactly when it lies in `[0, 2^32)`; in particular a negative
`shardId` cannot be put on the wire (claim C9). -/
def uint32EncodeInt (v : Int) : Except Unit Bytes :=
  if 0 ≤ v ∧ v < 2 ^ 32 then uint32Encode v.toNat else .error ()

/-- Take exactly `n` bytes from the front of a byte string. -/
def takeBytes : Nat → Bytes → Except Unit (Bytes × Bytes)
  | 0, bs => .ok ([], bs)
  | _ + 1, [] => .error ()
  | n + 1, b :: bs =>
    match takeBytes n bs with
    | .ok (xs, rest) => .ok (b :: xs, rest)
    | .error e => .error e

/-- Modelled from the spec: an `Address` is a fixed-size opaque identifier
(§3); the concrete size constant is opaque to this core, any fixed value
exhibits the layout. -/
def addressByteLength : Nat := 24

/-- Opaque transaction payload (`quarkchain.core.Transaction`); this core only
moves transactions around, never inspects them. -/
structure Transaction where
  payload : Nat
deriving DecidableEq

/-- Modelled from the spec: transactions have opaque encode/decode routines
(§1 out-of-scope list); a codec is passed in as a parameter. -/
structure TxCodec where
  enc : Transaction → Except Unit Bytes
  dec : Bytes → Except Unit (Transaction × Bytes)

mutual

/-- Field serializer expressions that occur in the `FIELDS` declarations of
`local.py`: primitives, the two length-prefixed combinators, and a nested
`Serializable` record (used for `NewTransaction` inside a list). -/
inductive Ser where
  | uint8
  | uint32
  | address
  | transaction
  | bytesPrefixed
  | listPrefixed (elem : Ser)
  | record (fields : List PyEntry)

/-- One element of a Python `FIELDS` tuple.  A well-formed entry is a
`(name, serializer)` pair; `bareStr`/`bareSer` transcribe elements of a
malformed flat tuple (as in `AddNewTransactionListResponse.FIELDS`,
`local.py` lines 80-83), which the generic pair-unpacking iteration of the
codec cannot process. -/
inductive PyEntry where
  | field (name : String) (ser : Ser)
  | bareStr (s : String)
  | bareSer (ser : Ser)

end

/-- Decoded field values. -/
inductive Val where
  | num (n : Nat)
  | bytes (bs : Bytes)
  | addr (bs : Bytes)
  | tx (t : Transaction)
  | list (vs : List Val)
  | struct (fs : List (String × Val))

/-- Decode `n` repetitions with a given element decoder. -/
def decodeRep (dec : Bytes → Except Unit (Val × Bytes)) :
    Nat → Bytes → Except Unit (List Val × Bytes)
  | 0, bs => .ok ([], bs)
  | n + 1, bs =>
    match dec bs with
    | .error e => .error e
    | .ok (v, rest) =>
      match decodeRep dec n rest with
      | .error e => .error e
      | .ok (vs, rest') => .ok (v :: vs, rest')

/-- Decode a `FIELDS` tuple in declared order with a given serializer decoder.
An entry that is not a `(name, serializer)` pair makes the generic
`for name, ser in FIELDS` iteration of the codec fail. -/
def decodeFieldsWith (dec : Ser → Bytes → Except Unit (Val × Bytes)) :
    List PyEntry → Bytes → Except Unit (List (String × Val) × Bytes)
  | [], bs => .ok ([], bs)
  | .field name s :: es, bs =>
    match dec s bs with
    | .error e => .error e
    | .ok (v, rest) =>
      match decodeFieldsWith dec es rest with
      | .error e => .error e
      | .ok (fs, rest') => .ok ((name, v) :: fs, rest')
  | .bareStr _ :: _, _ => .error ()
  | .bareSer _ :: _, _ => .error ()

/-- Decode one serializer's worth of bytes.  `fuel` bounds the nesting depth
of the schema (not the input length); any `fuel` at least the structural
depth of the serializer reproduces the Python behaviour exactly. -/
def decodeSer (c : TxCodec) : Nat → Ser → Bytes → Except Unit (Val × Bytes)
  | 0, _, _ => .error ()
  | _ + 1, .uint8, bs =>
    match uint8Decode bs with
    | .error e => .error e
    | .ok (n, rest) => .ok (.num n, rest)
  | _ + 1, .uint32, bs =>
    match uint32Decode bs with
    | .error e => .error e
    | .ok (n, rest) => .ok (.num n, rest)
  | _ + 1, .address, bs =>
    match takeBytes addressByteLength bs with
    | .error e => .error e
    | .ok (xs, rest) => .ok (.addr xs, rest)
  | _ + 1, .transaction, bs =>
    match c.dec bs with
    | .error e => .error e
    | .ok (t, rest) => .ok (.tx t, rest)
  | _ + 1, .bytesPrefixed, bs =>
    match uint32Decode bs with
    | .error e => .error e
    | .ok (n, rest) =>
      match takeBytes n rest with
      | .error e => .error e
      | .ok (xs, rest') => .ok (.bytes xs, rest')
  | fuel + 1, .listPrefixed elem, bs =>
    match uint32Decode bs with
    | .error e => .error e
    | .ok (n, rest) =>
      match decodeRep (decodeSer c fuel elem) n rest with
      | .error e => .error e
      | .ok (vs, rest') => .ok (.list vs, rest')
  | fuel + 1, .record es, bs =>
    match decodeFieldsWith (decodeSer c fuel) es bs with
    | .error e => .error e
    | .ok (fs, rest) => .ok (.struct fs, rest)

/-- Encode a list of values with a given element encoder. -/
def encodeRep (enc : Val → Except Unit Bytes) : List Val → Except Unit Bytes
  | [] => .ok []
  | v :: vs =>
    match enc v with
    | .error e => .error e
    | .ok b =>
      match encodeRep enc vs with
      | .error e => .error e
      | .ok rest => .ok (b ++ rest)

/-- Encode a `FIELDS` tuple in declared order, reading each named attribute
from the object's attribute list (`getattr`). -/
def encodeFieldsWith (enc : Ser → Val → Except Unit Bytes) :
    List PyEntry → List (String × Val) → Except Unit Bytes
  | [], _ => .ok []
  | .field name s :: es, fs =>
    match pyLookup fs name with
    | some v =>
      match enc s v with
      | .error e => .error e
      | .ok b =>
        match encodeFieldsWith enc es fs with
        | .error e => .error e
        | .ok rest => .ok (b ++ rest)
    | none => .error ()
  | .bareStr _ :: _, _ => .error ()
  | .bareSer _ :: _, _ => .error ()

/-- Encode one value against a serializer; `fuel` as in `decodeSer`. -/
def encodeSer (c : TxCodec) : Nat → Ser → Val → Except Unit Bytes
  | 0, _, _ => .error ()
  | _ + 1, .uint8, .num n => uint8Encode n
  | _ + 1, .uint32, .num n => uint32Encode n
  | _ + 1, .address, .addr bs =>
    if bs.length = addressByteLength then .ok bs else .error ()
  | _ + 1, .transaction, .tx t => c.enc t
  | _ + 1, .bytesPrefixed, .bytes bs =>
    match uint32Encode bs.length with
    | .error e => .error e
    | .ok lenB => .ok (lenB ++ bs)
  | fuel + 1, .listPrefixed elem, .list vs =>
    match uint32Encode vs.length with
    | .error e => .error e
    | .ok lenB =>
      match encodeRep (encodeSer c fuel elem) vs with
      | .error e => .error e
      | .ok body => .ok (lenB ++ body)
  | fuel + 1, .record es, .struct fs => encodeFieldsWith (encodeSer c fuel) es fs
  | _ + 1, _, _ => .error ()

/-- Message-level deserialization: decode all declared fields and require the
payload to be fully consumed (§4.1: the op-code-selected schema covers the
whole payload). -/
def deserializeMsg (c : TxCodec) (fuel : Nat) (es : List PyEntry) (bs : Bytes) :
    Except Unit (List (String × Val)) :=
  match decodeFieldsWith (decodeSer c fuel) es bs with
  | .ok (fs, []) => .ok fs
  | .ok (_, _ :: _) => .error ()
  | .error e => .error e

/-- Message-level serialization: concatenate the encoded fields in declared
order. -/
def serializeMsg (c : TxCodec) (fuel : Nat) (es : List PyEntry) (fs : List (String × Val)) :
    Except Unit Bytes :=
  encodeFieldsWith (encodeSer c fuel) es fs

/-- Boolean decode-then-encode round-trip check for one message schema on one
byte string. -/
def roundTripOk (c : TxCodec) (fuel : Nat) (es : List PyEntry) (bs : Bytes) : Bool :=
  match deserializeMsg c fuel es bs with
  | .ok fs =>
    match serializeMsg c fuel es fs with
    | .ok out => out == bs
    | .error _ => false
  | .error _ => false

/-! ## The eight `FIELDS` declarations of `local.py` (§4.1) -/

/-- Wire schema of `NewTransaction` (`local.py` lines 58-62). -/
def NewTransaction.FIELDS : List PyEntry :=
  [.field "shardId" .uint32, .field "transaction" .transaction]

/-- Wire schema of `GetBlockTemplateRequest` (`local.py` lines 10-16). -/
def GetBlockTemplateRequest.FIELDS : List PyEntry :=
  [.field "address" .address, .field "includeRoot" .uint8,
   .field "shardMaskList" (.listPrefixed .uint32)]

/-- Wire schema of `GetBlockTemplateResponse` (`local.py` lines 25-29). -/
def GetBlockTemplateResponse.FIELDS : List PyEntry :=
  [.field "isRootBlock" .uint8, .field "blockData" .bytesPrefixed]

/-- Wire schema of `SubmitNewBlockRequest` (`local.py` lines 36-40). -/
def SubmitNewBlockRequest.FIELDS : List PyEntry :=
  [.field "isRootBlock" .uint8, .field "blockData" .bytesPrefixed]

/-- Wire schema of `SubmitNewBlockResponse` (`local.py` lines 47-51). -/
def SubmitNewBlockResponse.FIELDS : List PyEntry :=
  [.field "resultCode" .uint8, .field "resultMessage" .bytesPrefixed]

/-- Wire schema of `AddNewTransactionListRequest` (`local.py` lines 71-74). -/
def AddNewTransactionListRequest.FIELDS : List PyEntry :=
  [.field "txList" (.listPrefixed (.record NewTransaction.FIELDS))]

/-- Wire schema of `AddNewTransactionListResponse` as written in the source
(`local.py` lines 80-83): `FIELDS = ("numTxAdded", uint32)` is a flat
2-tuple — the inner trailing comma is missing — so its elements are the bare
string `"numTxAdded"` and the bare serializer `uint32`, not one
`(name, serializer)` pair. -/
def AddNewTransactionListResponse.FIELDS : List PyEntry :=
  [.bareStr "numTxAdded", .bareSer .uint32]

/-- Wire schema of `JsonRpcRequest` (`local.py` lines 89-92). -/
def JsonRpcRequest.FIELDS : List PyEntry :=
  [.field "jrpcRequest" .bytesPrefixed]

/-- Wire schema of `JsonRpcResponse` (`local.py` lines 98-101). -/
def JsonRpcResponse.FIELDS : List PyEntry :=
  [.field "jrpcResponse" .bytesPrefixed]

/-- Concrete witness transaction codec: one opaque byte per transaction. -/
def txCodec0 : TxCodec :=
  ⟨fun t => if t.payload < 256 then .ok [t.payload] else .error (),
   fun bs =>
     match bs with
     | b :: rest => if b < 256 then .ok (⟨b⟩, rest) else .error ()
     | [] => .error ()⟩

/-! ## Value-level request/response objects and the binary command handlers -/

/-- Value form of `NewTransaction` (`local.py` lines 58-68).  The constructor
docstring reserves negative `shardId` for "unknown shard", but the wire field
is `uint32`, so the value carried on the wire is a natural number. -/
structure NewTransaction where
  shardId : Nat
  transaction : Transaction
deriving DecidableEq

/-- Value form of `AddNewTransactionListRequest` (`local.py` lines 71-77). -/
structure AddNewTransactionListRequest where
  txList : List NewTransaction
deriving DecidableEq

/-- Value form of `AddNewTransactionListResponse` (`local.py` lines 80-86). -/
structure AddNewTransactionListResponse where
  numTxAdded : Nat
deriving DecidableEq

/-- Argument lists passed to `qcState.addTransactionToQueue` by
`handleAddNewTransactionListRequest` (`local.py` lines 181-184): the source
loops `for newTx in request.txList` and calls
`self.network.qcState.addTransactionToQueue()` with an *empty* argument list
each time; the loop variable `newTx` is never used. -/
def addTransactionsEnqueueCallArgs (req : AddNewTransactionListRequest) :
    List (List Transaction) :=
  req.txList.map (fun _ => [])

/-- Response built on line 184: `AddNewTransactionListResponse(len(request.txList))`. -/
def handleAddNewTransactionListRequest (req : AddNewTransactionListRequest) :
    AddNewTransactionListResponse :=
  ⟨req.txList.length⟩

/-- Modelled from the spec: the state-engine enqueue operation is
`addTransactionToQueue(tx)` (§6), one argument carrying the transaction, so
the handler described by §4.3 performs one call per envelope whose argument
list is exactly that envelope's embedded transaction. -/
def specEnqueueCallArgs (req : AddNewTransactionListRequest) :
    List (List Transaction) :=
  req.txList.map (fun e => [e.transaction])

/-- Value form of `SubmitNewBlockRequest` (`local.py` lines 36-44). -/
structure SubmitNewBlockRequest where
  isRootBlock : Nat
  blockData : Bytes
deriving DecidableEq

/-- Value form of `SubmitNewBlockResponse` (`local.py` lines 47-55); the
constructor default gives an empty `resultMessage`. -/
structure SubmitNewBlockResponse where
  resultCode : Nat
  resultMessage : Bytes
deriving DecidableEq

/-- Python `bytes(s, "ascii")`: the code points of the string. -/
def asciiEncode (s : String) : Bytes := s.toList.map Char.toNat

/-- Modelled from the spec: the block codec and the append operations are
state-engine collaborators (§6): `RootBlock.deserialize` /
`MinorBlock.deserialize` either return a block or raise with a decode-error
text, and `appendRootBlock` / `appendMinorBlock` return `none` (accepted) or
an error description (rejected). -/
structure BlockEngine (R M : Type) where
  deserializeRootBlock : Bytes → Except String R
  deserializeMinorBlock : Bytes → Except String M
  appendRootBlock : R → Option String
  appendMinorBlock : M → Option String

/-- Handler of `local.py` lines 155-179.  The `try/except` around each
deserialize call is modelled by the `Except` result; the handler itself is
total — no exception escapes it. -/
def handleSubmitNewBlockRequest {R M : Type} (eng : BlockEngine R M)
    (req : SubmitNewBlockRequest) : SubmitNewBlockResponse :=
  if req.isRootBlock ≠ 0 then
    match eng.deserializeRootBlock req.blockData with
    | .error e => ⟨1, asciiEncode e⟩
    | .ok b =>
      match eng.appendRootBlock b with
      | none => ⟨0, []⟩
      | some m => ⟨1, asciiEncode m⟩
  else
    match eng.deserializeMinorBlock req.blockData with
    | .error e => ⟨1, asciiEncode e⟩
    | .ok b =>
      match eng.appendMinorBlock b with
      | none => ⟨0, []⟩
      | some m => ⟨1, asciiEncode m⟩

/-- Value form of `GetBlockTemplateRequest` (`local.py` lines 10-22). -/
structure GetBlockTemplateRequest where
  address : Bytes
  includeRoot : Nat
  shardMaskList : List Nat
deriving DecidableEq

/-- Value form of `GetBlockTemplateResponse` (`local.py` lines 25-33). -/
structure GetBlockTemplateResponse where
  isRootBlock : Nat
  blockData : Bytes
deriving DecidableEq

/-- Modelled from the spec: `findBestBlockToMine() -> (isRoot: bool|none,
block)` (§6), taken as a snapshot, plus the opaque block encoder; `none`
means no work is available. -/
structure MiningEngine (B : Type) where
  findBestBlockToMine : Option (Bool × B)
  serialize : B → Bytes

/-- Handler of `local.py` lines 140-153 (the `print` calls are I/O only). -/
def handleGetBlockTemplateRequest {B : Type} (eng : MiningEngine B)
    (_req : GetBlockTemplateRequest) : GetBlockTemplateResponse :=
  match eng.findBestBlockToMine with
  | none => ⟨0, []⟩
  | some (true, b) => ⟨1, eng.serialize b⟩
  | some (false, b) => ⟨0, eng.serialize b⟩

/-! ## JSON values and the JSON-RPC sub-protocol (`local.py` lines 235-269) -/

/-- JSON abstract syntax; numbers are rationals (Python floats and ints are
conflated, no claim depends on rounding). -/
inductive JVal where
  | null
  | bool (b : Bool)
  | num (q : ℚ)
  | str (s : String)
  | arr (xs : List JVal)
  | obj (fs : List (String × JVal))

/-- Leading-segment comparison of character lists. -/
def leadingMatch : List Char → List Char → Bool
  | [], _ => true
  | _ :: _, [] => false
  | a :: as, b :: bs => a == b && leadingMatch as bs

/-- Python substring containment (`needle in haystack` on `str`). -/
def substrMem (needle : List Char) : List Char → Bool
  | [] => leadingMatch needle []
  | b :: bs => leadingMatch needle (b :: bs) || substrMem needle bs

/-- Python `v == s` for a decoded JSON value against a string literal. -/
def pyEqStr (v : JVal) (s : String) : Bool :=
  match v with
  | .str t => t == s
  | _ => false

/-- Python `key in v` for a decoded JSON value: dict-key membership on
objects, element membership on lists, substring on strings; `TypeError` on
the remaining types. -/
def pyContains (v : JVal) (key : String) : PyResult Bool :=
  match v with
  | .obj fs => .ok (pyLookup fs key).isSome
  | .arr xs => .ok (xs.any (fun x => pyEqStr x key))
  | .str s => .ok (substrMem key.toList s.toList)
  | _ => .exn

/-- Python `v[key]` with a string key: dict lookup (`KeyError` when absent),
`TypeError` on anything else. -/
def pySubscript (v : JVal) (key : String) : PyResult JVal :=
  match v with
  | .obj fs =>
    match pyLookup fs key with
    | some x => .ok x
    | none => .exn
  | _ => .exn

/-- Python `method not in JRPC_MAP` for a decoded JSON value used as a dict
key: strings are looked up, other hashable values are simply absent,
unhashable values (lists, dicts) raise. -/
def pyDictContains {H : Type} (d : String → Option H) (k : JVal) : PyResult Bool :=
  match k with
  | .str s => .ok (d s).isSome
  | .arr _ => .exn
  | .obj _ => .exn
  | _ => .ok false

/-- Error-response builder `jrpcError` (`local.py` lines 235-242), at the JSON
AST level: the payload is `json.dumps` of this object.  Every call site in
`handleJsonRpcRequest` leaves `jrpcId` at its default `None`. -/
def jrpcError (errorCode : Int) (jrpcId : Option JVal) : JVal :=
  match jrpcId with
  | none => .obj [("jsonrpc", .str "2.0"), ("error", .obj [("code", .num (errorCode : ℚ))])]
  | some i =>
    .obj [("jsonrpc", .str "2.0"), ("error", .obj [("code", .num (errorCode : ℚ))]), ("id", i)]

/-- Field lookup on a JSON value that is an object; `none` otherwise. -/
def objLookup (v : JVal) (k : String) : Option JVal :=
  match v with
  | .obj fs => pyLookup fs k
  | _ => none

/-- Key list of a JSON object (empty for non-objects). -/
def jvalKeys : JVal → List String
  | .obj fs => fs.map Prod.fst
  | _ => []

/-- Handler of `local.py` lines 244-269, modelled on the outcome of
`json.loads` (`parsed`; the parser itself is the Python standard library) and
the method table (`JRPC_MAP` below for the table of line 287).  The returned
`JVal` is the JSON of the response payload: the bare handler return value on
success (line 267 dumps it directly), a `jrpcError` object otherwise.
`.exn` marks a Python exception escaping the handler (possible only for
payloads whose JSON top level is not an object). -/
def handleJsonRpcRequest (methods : String → Option (Option JVal → Except Unit JVal))
    (parsed : Except Unit JVal) : PyResult JVal :=
  match parsed with
  | .error _ => .ok (jrpcError (-32700) none)
  | .ok jreq =>
    match pyContains jreq "jsonrpc" with
    | .exn => .exn
    | .ok false => .ok (jrpcError (-32600) none)
    | .ok true =>
      match pySubscript jreq "jsonrpc" with
      | .exn => .exn
      | .ok ver =>
        if pyEqStr ver "2.0" then
          match pyContains jreq "method" with
          | .exn => .exn
          | .ok false => .ok (jrpcError (-32600) none)
          | .ok true =>
            match pySubscript jreq "method" with
            | .exn => .exn
            | .ok mv =>
              match pyDictContains methods mv with
              | .exn => .exn
              | .ok false => .ok (jrpcError (-32601) none)
              | .ok true =>
                match mv with
                | .str m =>
                  match methods m with
                  | some h =>
                    match pyContains jreq "params" with
                    | .exn => .exn
                    | .ok false =>
                      match h none with
                      | .ok v => .ok v
                      | .error _ => .ok (jrpcError (-32603) none)
                    | .ok true =>
                      match pySubscript jreq "params" with
                      | .exn => .exn
                      | .ok p =>
                        match h (some p) with
                        | .ok v => .ok v
                        | .error _ => .ok (jrpcError (-32603) none)
                  | none => .exn
                | _ => .exn
        else .ok (jrpcError (-32600) none)

/-! ## Stats aggregator (`local.py` lines 190-233) -/

/-- Minor-block header as used by the aggregator: height, creation timestamp
(`time.time()`-comparable, so a rational), difficulty. -/
structure MinorBlockHeader where
  height : Nat
  createTime : ℚ
  difficulty : Nat
deriving DecidableEq

/-- Root-chain tip header fields used by `jrpcGetStats`. -/
structure RootBlockHeader where
  height : Nat
  difficulty : Nat
deriving DecidableEq

/-- Modelled from the spec: the state-engine and store accessors consumed by
the aggregator (§6).  `getMinorBlockTxListLen h` is the composite
`len(env.db.getMinorBlockByHash(h.getHash()).txList)`: the full-block store
lookup followed by taking the transaction-list length. -/
structure QCState where
  getShardSize : Nat
  getRootBlockTip : RootBlockHeader
  getMinorBlockTip : Nat → MinorBlockHeader
  getMinorBlockHeaderByHeight : Nat → Nat → MinorBlockHeader
  getMinorBlockTxListLen : MinorBlockHeader → Nat

/-- The backward chain walk of `countMinorBlockHeaderStatsIn` for one shard:
while the current header's `createTime` is at least the threshold, apply `f`
and accumulate, stop after processing height 0, otherwise step to the header
at `height - 1`.  `fuel` bounds the number of backward steps; on a
well-formed chain (each height-`h` lookup has height `h`) `fuel` equal to the
starting height reproduces the Python loop exactly, which is also the only
situation in which the Python loop terminates. -/
def walkCount (qc : QCState) (shardId : Nat) (threshold : ℚ)
    (f : MinorBlockHeader → Nat) : MinorBlockHeader → Nat → Nat
  | header, 0 => if threshold ≤ header.createTime then f header else 0
  | header, fuel + 1 =>
    if threshold ≤ header.createTime then
      f header +
        (if header.height = 0 then 0
         else
           walkCount qc shardId threshold f
             (qc.getMinorBlockHeaderByHeight shardId (header.height - 1)) fuel)
    else 0

/-- Aggregator of `local.py` lines 190-201: `now` is sampled once before the
loop (here: passed in once), the threshold is `now - sec`, and one metric
accumulates across all shards (summed). -/
def countMinorBlockHeaderStatsIn (qc : QCState) (now sec : ℚ)
    (f : MinorBlockHeader → Nat) : Nat :=
  ((List.range qc.getShardSize).map (fun shardId =>
    walkCount qc shardId (now - sec) f (qc.getMinorBlockTip shardId)
      (qc.getMinorBlockTip shardId).height)).sum

/-- Aggregator of `local.py` lines 203-216: the same walk, but `f` is applied
to the full block fetched from the store by the header's hash (the stray
attribute access `self.env.db.get` on line 209 evaluates to a bound method
and discards it — a no-op). -/
def countMinorBlockStatsIn (qc : QCState) (now sec : ℚ)
    (f : MinorBlockHeader → Nat) : Nat :=
  ((List.range qc.getShardSize).map (fun shardId =>
    walkCount qc shardId (now - sec) f (qc.getMinorBlockTip shardId)
      (qc.getMinorBlockTip shardId).height)).sum

/-- Modelled from the spec (Python stdlib): `statistics.mean` of an empty
list raises `StatisticsError`; otherwise it is the arithmetic mean. -/
def pymean (l : List ℚ) : Except Unit ℚ :=
  match l with
  | [] => .error ()
  | _ :: _ => .ok (l.sum / l.length)

/-- The `getStats` method handler (`local.py` lines 218-233), building the
nine-field stats object.  Only the two `statistics.mean` calls can raise; the
Python dict literal evaluates its entries in order, so the whole call raises
exactly when a mean raises, i.e. when the shard list is empty. -/
def jrpcGetStats (qc : QCState) (now : ℚ) (_params : Option JVal) : Except Unit JVal :=
  match pymean ((List.range qc.getShardSize).map fun s => ((qc.getMinorBlockTip s).height : ℚ)),
        pymean ((List.range qc.getShardSize).map fun s => ((qc.getMinorBlockTip s).difficulty : ℚ)) with
  | .ok avgHeight, .ok avgDiff =>
    .ok (.obj
      [("shardSize", .num (qc.getShardSize : ℚ)),
       ("rootHeight", .num (qc.getRootBlockTip.height : ℚ)),
       ("rootDifficulty", .num (qc.getRootBlockTip.difficulty : ℚ)),
       ("avgMinorHeight", .num avgHeight),
       ("avgMinorDifficulty", .num avgDiff),
       ("minorBlocksIn60s", .num ((countMinorBlockHeaderStatsIn qc now 60 fun _ => 1) : ℚ)),
       ("minorBlocksIn300s", .num ((countMinorBlockHeaderStatsIn qc now 300 fun _ => 1) : ℚ)),
       ("transactionsIn60s", .num ((countMinorBlockStatsIn qc now 60 qc.getMinorBlockTxListLen) : ℚ)),
       ("transactionsIn300s", .num ((countMinorBlockStatsIn qc now 300 qc.getMinorBlockTxListLen) : ℚ))])
  | _, _ => .error ()

/-- The JSON-RPC method table (`local.py` lines 287-289): exactly one method,
`"getStats"`. -/
def JRPC_MAP (qc : QCState) (now : ℚ) : String → Option (Option JVal → Except Unit JVal) :=
  fun m => if m = "getStats" then some (jrpcGetStats qc now) else none

/-! ## Spec-side characterization of the window count (claim C6) -/

/-- Headers at heights `h, h-1, ..., 0` of one shard. -/
def descendHeaders (qc : QCState) (s h : Nat) : List MinorBlockHeader :=
  ((List.range (h + 1)).reverse).map (qc.getMinorBlockHeaderByHeight s)

/-- A shard whose header-by-height lookup is consistent up to the tip: the
header returned for height `h` has height `h`, and the tip is the header at
the tip's height.  This is the only situation in which the Python walk
terminates. -/
def QCState.WellFormedShard (qc : QCState) (s : Nat) : Prop :=
  (∀ h, h < (qc.getMinorBlockTip s).height + 1 →
    (qc.getMinorBlockHeaderByHeight s h).height = h)
  ∧ qc.getMinorBlockTip s =
      qc.getMinorBlockHeaderByHeight s (qc.getMinorBlockTip s).height

/-- The spec's description of the per-shard window count: the number of
headers, walking backward from the tip one height at a time, whose creation
timestamp is at least the threshold, stopping after the genesis header or at
the first header below the threshold. -/
def specWindowCount (qc : QCState) (s : Nat) (threshold : ℚ) : Nat :=
  ((descendHeaders qc s (qc.getMinorBlockTip s).height).takeWhile
    (fun hd => decide (threshold ≤ hd.createTime))).length

/-! ## Concrete instances used by witnesses and counterexamples -/

/-- Genesis header of the synthetic chain of §8: time `now - 400` for `now = 1000`. -/
def hdr0 : MinorBlockHeader := ⟨0, 600, 10⟩

/-- Height-1 header of the synthetic chain: time `now - 70`. -/
def hdr1 : MinorBlockHeader := ⟨1, 930, 11⟩

/-- Tip header of the synthetic chain: time `now - 10`. -/
def hdr2 : MinorBlockHeader := ⟨2, 990, 12⟩

/-- Synthetic one-shard state of §8: headers at times `now-10, now-70,
now-400` at heights 2, 1, 0; each block holds `height`-many transactions. -/
def qc0 : QCState :=
  ⟨1, ⟨3, 1000⟩, fun _ => hdr2,
   fun _ h => if h = 0 then hdr0 else if h = 1 then hdr1 else hdr2,
   fun h => h.height⟩

/-- State whose engine reports shard size 0 (claim C10). -/
def qcEmpty : QCState := ⟨0, ⟨0, 0⟩, fun _ => hdr0, fun _ _ => hdr0, fun _ => 0⟩

/-- Field list of the well-formed `getStats` JSON-RPC request body. -/
def getStatsReqFields : List (String × JVal) :=
  [("jsonrpc", .str "2.0"), ("method", .str "getStats")]

/-- The well-formed `getStats` JSON-RPC request body
`{"jsonrpc":"2.0","method":"getStats"}`. -/
def getStatsReq : JVal := .obj getStatsReqFields

/-- The stats object `jrpcGetStats` produces on `qc0` at `now = 1000`. -/
def qc0StatsVal : JVal :=
  .obj
    [("shardSize", .num 1), ("rootHeight", .num 3), ("rootDifficulty", .num 1000),
     ("avgMinorHeight", .num 2), ("avgMinorDifficulty", .num 12),
     ("minorBlocksIn60s", .num 1), ("minorBlocksIn300s", .num 2),
     ("transactionsIn60s", .num 2), ("transactionsIn300s", .num 3)]

/-- A JSON-RPC request that carries an `id` and names an unknown method. -/
def c4reqFields : List (String × JVal) :=
  [("jsonrpc", .str "2.0"), ("method", .str "noSuchMethod"), ("id", .num 7)]

/-- Witness transaction for claim C1. -/
def tx42 : Transaction := ⟨42⟩

/-- Single-envelope request for claim C1. -/
def c1req : AddNewTransactionListRequest := ⟨[⟨5, tx42⟩]⟩

/-- Three-envelope request for claim C1. -/
def c1req3 : AddNewTransactionListRequest := ⟨[⟨0, ⟨1⟩⟩, ⟨1, ⟨2⟩⟩, ⟨2, ⟨3⟩⟩]⟩

/-- Byte string that decodes as `GetBlockTemplateRequest`: a 24-byte address,
`includeRoot = 1`, and a two-element shard-mask list `[3, 5]`. -/
def gbtReqBytes : Bytes :=
  List.replicate 24 0 ++ [1] ++ [0, 0, 0, 2, 0, 0, 0, 3, 0, 0, 0, 5]

/-- Mining engine snapshot with no work available. -/
def miningNone : MiningEngine Nat := ⟨none, fun b => [b]⟩

/-- Mining engine snapshot offering a root-block candidate. -/
def miningRoot : MiningEngine Nat := ⟨some (true, 7), fun b => [b]⟩

/-- Mining engine snapshot offering a minor-block candidate. -/
def miningMinor : MiningEngine Nat := ⟨some (false, 9), fun b => [b]⟩

/-- A concrete block-template request (its contents are ignored by the
handler, as in the source). -/
def gbtReq0 : GetBlockTemplateRequest := ⟨List.replicate 24 0, 1, []⟩

/-- Concrete witness block engine over single-byte blocks: an empty blob
fails to decode, block `9` is accepted, every other block is rejected. -/
def blockEngine0 : BlockEngine Nat Nat :=
  ⟨fun bs => match bs with | [] => .error "empty blob" | b :: _ => .ok b,
   fun bs => match bs with | [] => .error "empty blob" | b :: _ => .ok b,
   fun b => if b = 9 then none else some "bad root",
   fun b => if b = 9 then none else some "bad minor"⟩

/-! ## Round-trip predicates (claim C8) -/

/-- A transaction codec whose successful decodes re-encode to the consumed
prefix. -/
def TxCodecRT (c : TxCodec) : Prop :=
  ∀ bs t rest, c.dec bs = .ok (t, rest) → ∃ p, c.enc t = .ok p ∧ p ++ rest = bs

/-- Decode-then-encode round trip for one serializer at one fuel. -/
def SerRoundTrips (c : TxCodec) (fuel : Nat) (s : Ser) : Prop :=
  ∀ bs v rest, decodeSer c fuel s bs = .ok (v, rest) →
    ∃ p, encodeSer c fuel s v = .ok p ∧ p ++ rest = bs

/-- Decode-then-encode round trip for a `FIELDS` tuple at one fuel. -/
def FieldsRoundTrip (c : TxCodec) (fuel : Nat) (es : List PyEntry) : Prop :=
  ∀ bs fs rest, decodeFieldsWith (decodeSer c fuel) es bs = .ok (fs, rest) →
    ∃ p, encodeFieldsWith (encodeSer c fuel) es fs = .ok p ∧ p ++ rest = bs

/-- The declared names of the well-formed entries of a `FIELDS` tuple. -/
def fieldNames : List PyEntry → List String
  | [] => []
  | .field n _ :: es => n :: fieldNames es
  | .bareStr _ :: es => fieldNames es
  | .bareSer _ :: es => fieldNames es

/-! ## Theorems -/

/-- A string with a character has a non-empty ascii encoding. -/
theorem asciiEncode_ne_nil {s : String} (hs : s ≠ "") : asciiEncode s ≠ [] := by
  intro h
  apply hs
  have hdata : s.toList = [] := List.map_eq_nil_iff.mp h
  cases s with
  | mk d =>
    simp only [String.toList, String.data] at hdata
    subst hdata
    rfl

/-- C1: the add-transactions handler iterates the submitted envelopes and
computes `numTxAdded = len(txList)`, but every enqueue call it makes carries
an empty argument list — the loop variable `newTx` is unused, so no
envelope's transaction is ever forwarded to the state engine, contradicting
the spec's one-argument `addTransactionToQueue(tx)` contract. -/
theorem c1_enqueue_drops_transactions :
    addTransactionsEnqueueCallArgs c1req = [[]]
    ∧ specEnqueueCallArgs c1req = [[tx42]]
    ∧ addTransactionsEnqueueCallArgs c1req ≠ specEnqueueCallArgs c1req
    ∧ (handleAddNewTransactionListRequest c1req).numTxAdded = 1
    ∧ (handleAddNewTransactionListRequest ⟨[]⟩).numTxAdded = 0
    ∧ addTransactionsEnqueueCallArgs (⟨[]⟩ : AddNewTransactionListRequest) = []
    ∧ (handleAddNewTransactionListRequest c1req3).numTxAdded = 3
    ∧ addTransactionsEnqueueCallArgs c1req3 = [[], [], []]
    ∧ addTransactionsEnqueueCallArgs c1req3 ≠ specEnqueueCallArgs c1req3 := by
  decide

/-- C2: the submit-block handler is total (the decode `try/except` is the
`Except` result) and maps: decode failure to `resultCode = 1` with the
non-empty decode-error text; engine acceptance to `resultCode = 0` with empty
message; engine rejection to `resultCode = 1` with the engine's description
verbatim (ascii-encoded). -/
theorem c2_submit_block_responses {R M : Type} (eng : BlockEngine R M)
    (req : SubmitNewBlockRequest) :
    (∀ e, req.isRootBlock ≠ 0 → eng.deserializeRootBlock req.blockData = .error e → e ≠ "" →
      handleSubmitNewBlockRequest eng req = ⟨1, asciiEncode e⟩ ∧ asciiEncode e ≠ [])
    ∧ (∀ e, req.isRootBlock = 0 → eng.deserializeMinorBlock req.blockData = .error e → e ≠ "" →
      handleSubmitNewBlockRequest eng req = ⟨1, asciiEncode e⟩ ∧ asciiEncode e ≠ [])
    ∧ (∀ b, req.isRootBlock ≠ 0 → eng.deserializeRootBlock req.blockData = .ok b →
      eng.appendRootBlock b = none → handleSubmitNewBlockRequest eng req = ⟨0, []⟩)
    ∧ (∀ b, req.isRootBlock = 0 → eng.deserializeMinorBlock req.blockData = .ok b →
      eng.appendMinorBlock b = none → handleSubmitNewBlockRequest eng req = ⟨0, []⟩)
    ∧ (∀ b msg, req.isRootBlock ≠ 0 → eng.deserializeRootBlock req.blockData = .ok b →
      eng.appendRootBlock b = some msg →
      handleSubmitNewBlockRequest eng req = ⟨1, asciiEncode msg⟩)
    ∧ (∀ b msg, req.isRootBlock = 0 → eng.deserializeMinorBlock req.blockData = .ok b →
      eng.appendMinorBlock b = some msg →
      handleSubmitNewBlockRequest eng req = ⟨1, asciiEncode msg⟩) := by
  refine ⟨fun e hr hd he => ⟨?_, asciiEncode_ne_nil he⟩,
          fun e hr hd he => ⟨?_, asciiEncode_ne_nil he⟩,
          fun b hr hd ha => ?_, fun b hr hd ha => ?_,
          fun b msg hr hd ha => ?_, fun b msg hr hd ha => ?_⟩
  · simp [handleSubmitNewBlockRequest, hr, hd]
  · simp [handleSubmitNewBlockRequest, hr, hd]
  · simp [handleSubmitNewBlockRequest, hr, hd, ha]
  · simp [handleSubmitNewBlockRequest, hr, hd, ha]
  · simp [handleSubmitNewBlockRequest, hr, hd, ha]
  · simp [handleSubmitNewBlockRequest, hr, hd, ha]

/-- C2 witness: the six cases at the concrete single-byte block engine. -/
theorem c2_submit_block_responses_witness :
    (handleSubmitNewBlockRequest blockEngine0 ⟨1, []⟩ = ⟨1, asciiEncode "empty blob"⟩
      ∧ asciiEncode "empty blob" ≠ [])
    ∧ (handleSubmitNewBlockRequest blockEngine0 ⟨0, []⟩ = ⟨1, asciiEncode "empty blob"⟩
      ∧ asciiEncode "empty blob" ≠ [])
    ∧ handleSubmitNewBlockRequest blockEngine0 ⟨1, [9]⟩ = ⟨0, []⟩
    ∧ handleSubmitNewBlockRequest blockEngine0 ⟨0, [9]⟩ = ⟨0, []⟩
    ∧ handleSubmitNewBlockRequest blockEngine0 ⟨1, [8]⟩ = ⟨1, asciiEncode "bad root"⟩
    ∧ handleSubmitNewBlockRequest blockEngine0 ⟨0, [8]⟩ = ⟨1, asciiEncode "bad minor"⟩ :=
  ⟨(c2_submit_block_responses blockEngine0 ⟨1, []⟩).1 "empty blob" (by decide) rfl (by decide),
   (c2_submit_block_responses blockEngine0 ⟨0, []⟩).2.1 "empty blob" rfl rfl (by decide),
   (c2_submit_block_responses blockEngine0 ⟨1, [9]⟩).2.2.1 9 (by decide) rfl rfl,
   (c2_submit_block_responses blockEngine0 ⟨0, [9]⟩).2.2.2.1 9 rfl rfl rfl,
   (c2_submit_block_responses blockEngine0 ⟨1, [8]⟩).2.2.2.2.1 8 "bad root" (by decide) rfl rfl,
   (c2_submit_block_responses blockEngine0 ⟨0, [8]⟩).2.2.2.2.2 8 "bad minor" rfl rfl rfl⟩

/-- C7: the block-template handler is total and maps the engine's snapshot
as: no candidate to `(isRootBlock = 0, empty bytes)`; a root candidate to
`(1, encoded block)`; a minor candidate to `(0, encoded block)`. -/
theorem c7_block_template_mapping {B : Type} (eng : MiningEngine B)
    (req : GetBlockTemplateRequest) :
    (eng.findBestBlockToMine = none →
      handleGetBlockTemplateRequest eng req = ⟨0, []⟩)
    ∧ (∀ b, eng.findBestBlockToMine = some (true, b) →
      handleGetBlockTemplateRequest eng req = ⟨1, eng.serialize b⟩)
    ∧ (∀ b, eng.findBestBlockToMine = some (false, b) →
      handleGetBlockTemplateRequest eng req = ⟨0, eng.serialize b⟩) := by
  refine ⟨fun h => ?_, fun b h => ?_, fun b h => ?_⟩ <;>
    simp [handleGetBlockTemplateRequest, h]

/-- C7 witness: the three snapshots at concrete engines. -/
theorem c7_block_template_mapping_witness :
    handleGetBlockTemplateRequest miningNone gbtReq0 = ⟨0, []⟩
    ∧ handleGetBlockTemplateRequest miningRoot gbtReq0 = ⟨1, [7]⟩
    ∧ handleGetBlockTemplateRequest miningMinor gbtReq0 = ⟨0, [9]⟩ :=
  ⟨(c7_block_template_mapping miningNone gbtReq0).1 rfl,
   (c7_block_template_mapping miningRoot gbtReq0).2.1 7 rfl,
   (c7_block_template_mapping miningMinor gbtReq0).2.2 9 rfl⟩

/-- C8: the flat (pair-less) `FIELDS` tuple of `AddNewTransactionListResponse`
makes its generic decode fail on every payload, for every transaction codec
and fuel — exercised on the 4-byte `uint32` encoding of 7, the exact layout
the schema intends — while each of the other seven §4.1 schemas
decode-then-encode round-trips on a concrete payload exercising its field
layout (and universally: `wireSchemas_roundTrip`). -/
theorem c8_wire_roundtrip_malformed_response_fields :
    (∀ (c : TxCodec) (fuel : Nat) (bs : Bytes),
      deserializeMsg c fuel AddNewTransactionListResponse.FIELDS bs = .error ())
    ∧ deserializeMsg txCodec0 8 AddNewTransactionListResponse.FIELDS [0, 0, 0, 7] = .error ()
    ∧ roundTripOk txCodec0 8 GetBlockTemplateRequest.FIELDS gbtReqBytes = true
    ∧ roundTripOk txCodec0 8 GetBlockTemplateResponse.FIELDS [1, 0, 0, 0, 2, 170, 187] = true
    ∧ roundTripOk txCodec0 8 SubmitNewBlockRequest.FIELDS [0, 0, 0, 0, 1, 9] = true
    ∧ roundTripOk txCodec0 8 SubmitNewBlockResponse.FIELDS [1, 0, 0, 0, 2, 65, 66] = true
    ∧ roundTripOk txCodec0 8 AddNewTransactionListRequest.FIELDS
        [0, 0, 0, 1, 0, 0, 0, 7, 42] = true
    ∧ roundTripOk txCodec0 8 JsonRpcRequest.FIELDS [0, 0, 0, 3, 1, 2, 3] = true
    ∧ roundTripOk txCodec0 8 JsonRpcResponse.FIELDS [0, 0, 0, 0] = true :=
  ⟨fun c fuel bs => rfl, rfl, by decide, by decide, by decide, by decide, by decide,
   by decide, by decide⟩

/-- C9 counterexample: a negative shard id is not representable on the wire —
encoding `-1` as the `uint32` field fails — and the all-ones byte pattern
that would mean `-1` in a signed 32-bit field decodes to the unsigned value
`4294967295` instead. -/
theorem c9_negative_unrepresentable_counterexample :
    uint32EncodeInt (-1) = .error ()
    ∧ uint32Decode [255, 255, 255, 255] = .ok (4294967295, []) :=
  ⟨rfl, rfl⟩

/-- A decoded `uint32` value is below `2^32`. -/
theorem uint32Decode_lt {bs rest : Bytes} {n : Nat}
    (h : uint32Decode bs = .ok (n, rest)) : n < 2 ^ 32 := by
  match bs with
  | [] => simp [uint32Decode] at h
  | [b0] => simp [uint32Decode] at h
  | [b0, b1] => simp [uint32Decode] at h
  | [b0, b1, b2] => simp [uint32Decode] at h
  | b0 :: b1 :: b2 :: b3 :: r =>
    simp only [uint32Decode] at h
    split at h
    · rename_i hb
      injection h with h'
      injection h' with hn hrest
      obtain ⟨hb0, hb1, hb2, hb3⟩ := hb
      omega
    · simp at h

/-- Inversion for decoding one well-formed `FIELDS` entry followed by the
rest. -/
theorem decodeFieldsWith_cons_inv {dec : Ser → Bytes → Except Unit (Val × Bytes)}
    {name : String} {s : Ser} {es : List PyEntry} {bs : Bytes}
    {out : List (String × Val) × Bytes}
    (h : decodeFieldsWith dec (.field name s :: es) bs = .ok out) :
    ∃ v rest fs rest', dec s bs = .ok (v, rest)
      ∧ decodeFieldsWith dec es rest = .ok (fs, rest')
      ∧ out = ((name, v) :: fs, rest') := by
  simp only [decodeFieldsWith] at h
  split at h
  · exact absurd h (by simp)
  · rename_i v rest h1
    split at h
    · exact absurd h (by simp)
    · rename_i fs' rest' h2
      injection h with h'
      exact ⟨v, rest, fs', rest', h1, h2, h'.symm⟩

/-- A `uint32` field decode yields a numeric value below `2^32`, at any fuel. -/
theorem decodeSer_uint32_shape {c : TxCodec} {fuel : Nat} {bs rest : Bytes} {v : Val}
    (h : decodeSer c fuel .uint32 bs = .ok (v, rest)) :
    ∃ n, v = .num n ∧ n < 2 ^ 32 := by
  match fuel with
  | 0 => simp [decodeSer] at h
  | fuel + 1 =>
    simp only [decodeSer] at h
    split at h
    · exact absurd h (by simp)
    · rename_i n r hu
      injection h with h'
      injection h' with hv hrest
      exact ⟨n, hv.symm, uint32Decode_lt hu⟩

/-- C9 (amended): the `shardId` wire field of `NewTransaction` is an unsigned
32-bit integer — a negative Python integer cannot be encoded into it, and
every decoded envelope carries a shard id in `[0, 2^32)`; the
"negative = unknown shard" convention exists only in the constructor
docstring. -/
theorem c9_shardid_unsigned_range :
    (∀ v : Int, v < 0 → uint32EncodeInt v = .error ())
    ∧ (∀ (c : TxCodec) (fuel : Nat) (bs rest : Bytes) (fs : List (String × Val)) (n : Nat),
        decodeSer c fuel (.record NewTransaction.FIELDS) bs = .ok (.struct fs, rest) →
        pyLookup fs "shardId" = some (.num n) →
        n < 2 ^ 32 ∧ 0 ≤ (n : Int)) := by
  constructor
  · intro v hv
    have hc : ¬(0 ≤ v ∧ v < 2 ^ 32) := by omega
    unfold uint32EncodeInt
    rw [if_neg hc]
  · intro c fuel bs rest fs n hdec hlk
    match fuel with
    | 0 => simp [decodeSer] at hdec
    | fuel + 1 =>
      simp only [decodeSer, NewTransaction.FIELDS] at hdec
      split at hdec
      · exact absurd hdec (by simp)
      · rename_i fs' rest' hflds
        injection hdec with hdec'
        injection hdec' with hstruct hrest
        injection hstruct with hfs
        obtain ⟨v1, r1, fs2, r2, h1, h2, hout⟩ := decodeFieldsWith_cons_inv hflds
        injection hout with hout1 hout2
        subst hfs
        subst hout1
        simp only [pyLookup, if_pos rfl] at hlk
        obtain ⟨m, hm, hlt⟩ := decodeSer_uint32_shape h1
        rw [hm] at hlk
        injection hlk with hlk'
        injection hlk' with hmn
        subst hmn
        exact ⟨hlt, Int.natCast_nonneg m⟩

/-- C9 witness: the amended claim at `-5` and at a concrete decoded envelope. -/
theorem c9_shardid_unsigned_range_witness :
    uint32EncodeInt (-5) = .error ()
    ∧ (7 < 2 ^ 32 ∧ 0 ≤ ((7 : Nat) : Int)) :=
  ⟨c9_shardid_unsigned_range.1 (-5) (by decide),
   c9_shardid_unsigned_range.2 txCodec0 8 [0, 0, 0, 7, 42] []
     [("shardId", .num 7), ("transaction", .tx ⟨42⟩)] 7 rfl rfl⟩

/-- A JSON value other than the string `s` compares unequal to `s`. -/
theorem pyEqStr_eq_false {v : JVal} {s : String} (h : v ≠ .str s) :
    pyEqStr v s = false := by
  cases v with
  | str t =>
    simp only [pyEqStr, beq_eq_false_iff_ne, ne_eq]
    intro ht
    exact h (by rw [ht])
  | null => rfl
  | bool b => rfl
  | num q => rfl
  | arr xs => rfl
  | obj fs => rfl

/-- C5: against the real method table, a payload that fails JSON parsing is
answered with code -32700; a JSON object without a `jsonrpc` field equal to
`"2.0"` with -32600; one with a good `jsonrpc` but no `method` field with
-32600; an unknown method name with -32601; and a failure raised inside the
invoked method handler with -32603 — in every case as a normal JSON-RPC
response value, not a connection fault. -/
theorem c5_jsonrpc_error_codes (qc : QCState) (now : ℚ) :
    (handleJsonRpcRequest (JRPC_MAP qc now) (.error ()) = .ok (jrpcError (-32700) none))
    ∧ (∀ fs, pyLookup fs "jsonrpc" ≠ some (.str "2.0") →
      handleJsonRpcRequest (JRPC_MAP qc now) (.ok (.obj fs)) = .ok (jrpcError (-32600) none))
    ∧ (∀ fs, pyLookup fs "jsonrpc" = some (.str "2.0") → pyLookup fs "method" = none →
      handleJsonRpcRequest (JRPC_MAP qc now) (.ok (.obj fs)) = .ok (jrpcError (-32600) none))
    ∧ (∀ fs m, pyLookup fs "jsonrpc" = some (.str "2.0") →
      pyLookup fs "method" = some (.str m) → JRPC_MAP qc now m = none →
      handleJsonRpcRequest (JRPC_MAP qc now) (.ok (.obj fs)) = .ok (jrpcError (-32601) none))
    ∧ (∀ fs m h, pyLookup fs "jsonrpc" = some (.str "2.0") →
      pyLookup fs "method" = some (.str m) → JRPC_MAP qc now m = some h →
      h (pyLookup fs "params") = .error () →
      handleJsonRpcRequest (JRPC_MAP qc now) (.ok (.obj fs)) = .ok (jrpcError (-32603) none)) := by
  refine ⟨rfl, fun fs hne => ?_, fun fs hj hm => ?_, fun fs m hj hm hnone => ?_,
    fun fs m h hj hm hsome herr => ?_⟩
  · cases hl : pyLookup fs "jsonrpc" with
    | none => simp [handleJsonRpcRequest, pyContains, hl]
    | some v =>
      have hv : v ≠ .str "2.0" := fun hv => hne (by rw [hl, hv])
      simp [handleJsonRpcRequest, pyContains, pySubscript, hl, pyEqStr_eq_false hv]
  · simp [handleJsonRpcRequest, pyContains, pySubscript, pyEqStr, hj, hm]
  · simp [handleJsonRpcRequest, pyContains, pySubscript, pyDictContains, pyEqStr, hj, hm, hnone]
  · cases hp : pyLookup fs "params" with
    | none =>
      rw [hp] at herr
      simp [handleJsonRpcRequest, pyContains, pySubscript, pyDictContains, pyEqStr,
        hj, hm, hsome, hp, herr]
    | some p =>
      rw [hp] at herr
      simp [handleJsonRpcRequest, pyContains, pySubscript, pyDictContains, pyEqStr,
        hj, hm, hsome, hp, herr]

/-- C5 witness: the five error codes at concrete requests against `qc0`'s
table (the -32603 case uses the shard-size-0 state, whose `getStats` handler
raises on the empty mean). -/
theorem c5_jsonrpc_error_codes_witness :
    handleJsonRpcRequest (JRPC_MAP qc0 1000) (.error ()) = .ok (jrpcError (-32700) none)
    ∧ handleJsonRpcRequest (JRPC_MAP qc0 1000) (.ok (.obj [("method", .str "getStats")]))
      = .ok (jrpcError (-32600) none)
    ∧ handleJsonRpcRequest (JRPC_MAP qc0 1000) (.ok (.obj [("jsonrpc", .str "2.0")]))
      = .ok (jrpcError (-32600) none)
    ∧ handleJsonRpcRequest (JRPC_MAP qc0 1000)
        (.ok (.obj [("jsonrpc", .str "2.0"), ("method", .str "noSuchMethod")]))
      = .ok (jrpcError (-32601) none)
    ∧ handleJsonRpcRequest (JRPC_MAP qcEmpty 1000) (.ok (.obj getStatsReqFields))
      = .ok (jrpcError (-32603) none) :=
  ⟨(c5_jsonrpc_error_codes qc0 1000).1,
   (c5_jsonrpc_error_codes qc0 1000).2.1 [("method", .str "getStats")]
     (fun h => Option.noConfusion h),
   (c5_jsonrpc_error_codes qc0 1000).2.2.1 [("jsonrpc", .str "2.0")] rfl rfl,
   (c5_jsonrpc_error_codes qc0 1000).2.2.2.1
     [("jsonrpc", .str "2.0"), ("method", .str "noSuchMethod")] "noSuchMethod" rfl rfl rfl,
   (c5_jsonrpc_error_codes qcEmpty 1000).2.2.2.2 getStatsReqFields "getStats"
     (jrpcGetStats qcEmpty 1000) rfl rfl rfl rfl⟩

/-- C3 counterexample: for the well-formed `getStats` request on the
one-shard state, the handler's reply payload is an object that has no
`result` field at all (it is the bare stats object — its `shardSize` field is
present at top level), refuting the claim that the handler's return value is
placed in a `result` field of the response. -/
theorem c3_no_result_field_counterexample :
    (match handleJsonRpcRequest (JRPC_MAP qc0 1000) (.ok getStatsReq) with
      | .ok r => objLookup r "result" = none ∧ objLookup r "shardSize" ≠ none
      | .exn => False) := by
  have h1 : countMinorBlockHeaderStatsIn qc0 1000 60 (fun _ => 1) = 1 := by
    have h : (1000 : ℚ) - 60 = 940 := by norm_num
    simp only [countMinorBlockHeaderStatsIn, h]; decide
  have h2 : countMinorBlockHeaderStatsIn qc0 1000 300 (fun _ => 1) = 2 := by
    have h : (1000 : ℚ) - 300 = 700 := by norm_num
    simp only [countMinorBlockHeaderStatsIn, h]; decide
  have h3 : countMinorBlockStatsIn qc0 1000 60 qc0.getMinorBlockTxListLen = 2 := by
    have h : (1000 : ℚ) - 60 = 940 := by norm_num
    simp only [countMinorBlockStatsIn, h]; decide
  have h4 : countMinorBlockStatsIn qc0 1000 300 qc0.getMinorBlockTxListLen = 3 := by
    have h : (1000 : ℚ) - 300 = 700 := by norm_num
    simp only [countMinorBlockStatsIn, h]; decide
  have hstats : jrpcGetStats qc0 1000 none = .ok qc0StatsVal := by
    simp only [jrpcGetStats, h1, h2, h3, h4]
    norm_num [pymean, qc0, hdr2, qc0StatsVal]
  have hhandle : handleJsonRpcRequest (JRPC_MAP qc0 1000) (.ok getStatsReq)
      = .ok qc0StatsVal := by
    have hred : handleJsonRpcRequest (JRPC_MAP qc0 1000) (.ok getStatsReq)
        = (match jrpcGetStats qc0 1000 none with
            | .ok v => .ok v
            | .error _ => .ok (jrpcError (-32603) none)) := rfl
    rw [hred, hstats]
  rw [hhandle]
  exact ⟨rfl, by simp [objLookup, qc0StatsVal, pyLookup]⟩

/-- C3 (amended): when the request parses to an object carrying
`jsonrpc = "2.0"` and a known method whose handler succeeds, the response
payload is the handler's return value JSON-encoded directly as the entire
payload (not wrapped in an object with a `result` field). -/
theorem c3_success_bare_payload
    (methods : String → Option (Option JVal → Except Unit JVal))
    (fs : List (String × JVal)) (m : String)
    (h : Option JVal → Except Unit JVal) (v : JVal)
    (hj : pyLookup fs "jsonrpc" = some (.str "2.0"))
    (hm : pyLookup fs "method" = some (.str m))
    (hsome : methods m = some h)
    (hok : h (pyLookup fs "params") = .ok v) :
    handleJsonRpcRequest methods (.ok (.obj fs)) = .ok v := by
  cases hp : pyLookup fs "params" with
  | none =>
    rw [hp] at hok
    simp [handleJsonRpcRequest, pyContains, pySubscript, pyDictContains, pyEqStr,
      hj, hm, hsome, hp, hok]
  | some p =>
    rw [hp] at hok
    simp [handleJsonRpcRequest, pyContains, pySubscript, pyDictContains, pyEqStr,
      hj, hm, hsome, hp, hok]

/-- C3 witness: the amended claim at the concrete `getStats` request on the
one-shard state, whose handler succeeds with the stats object — returned as
the whole payload. -/
theorem c3_success_bare_payload_witness :
    handleJsonRpcRequest (JRPC_MAP qc0 1000) (.ok (.obj getStatsReqFields))
      = .ok qc0StatsVal := by
  have h1 : countMinorBlockHeaderStatsIn qc0 1000 60 (fun _ => 1) = 1 := by
    have h : (1000 : ℚ) - 60 = 940 := by norm_num
    simp only [countMinorBlockHeaderStatsIn, h]; decide
  have h2 : countMinorBlockHeaderStatsIn qc0 1000 300 (fun _ => 1) = 2 := by
    have h : (1000 : ℚ) - 300 = 700 := by norm_num
    simp only [countMinorBlockHeaderStatsIn, h]; decide
  have h3 : countMinorBlockStatsIn qc0 1000 60 qc0.getMinorBlockTxListLen = 2 := by
    have h : (1000 : ℚ) - 60 = 940 := by norm_num
    simp only [countMinorBlockStatsIn, h]; decide
  have h4 : countMinorBlockStatsIn qc0 1000 300 qc0.getMinorBlockTxListLen = 3 := by
    have h : (1000 : ℚ) - 300 = 700 := by norm_num
    simp only [countMinorBlockStatsIn, h]; decide
  have hstats : jrpcGetStats qc0 1000 (pyLookup getStatsReqFields "params") = .ok qc0StatsVal := by
    simp only [jrpcGetStats, h1, h2, h3, h4]
    norm_num [pymean, qc0, hdr2, qc0StatsVal]
  exact c3_success_bare_payload (JRPC_MAP qc0 1000) getStatsReqFields "getStats"
    (jrpcGetStats qc0 1000) qc0StatsVal rfl rfl rfl hstats

/-- C4 counterexample: a request carrying `"id": 7` with an unknown method is
answered with the -32601 error object, and that response has no `id` field —
refuting the claim that the `id` field is present in the error response
exactly when the request carried one. -/
theorem c4_id_not_echoed_counterexample :
    handleJsonRpcRequest (JRPC_MAP qc0 1000) (.ok (.obj c4reqFields))
      = .ok (jrpcError (-32601) none)
    ∧ pyLookup c4reqFields "id" = some (.num 7)
    ∧ objLookup (jrpcError (-32601) none) "id" = none :=
  ⟨rfl, rfl, rfl⟩

/-- The only method in the table is `getStats`. -/
theorem JRPC_MAP_some {qc : QCState} {now : ℚ} {m : String}
    {h : Option JVal → Except Unit JVal}
    (hm : JRPC_MAP qc now m = some h) : h = jrpcGetStats qc now := by
  unfold JRPC_MAP at hm
  split at hm
  · injection hm with hm'
    exact hm'.symm
  · exact Option.noConfusion hm

/-- A successful `getStats` reply is the nine-field stats object; in
particular it has no `error` field. -/
theorem jrpcGetStats_ok_shape {qc : QCState} {now : ℚ} {p : Option JVal} {v : JVal}
    (h : jrpcGetStats qc now p = .ok v) :
    jvalKeys v = ["shardSize", "rootHeight", "rootDifficulty", "avgMinorHeight",
      "avgMinorDifficulty", "minorBlocksIn60s", "minorBlocksIn300s",
      "transactionsIn60s", "transactionsIn300s"]
    ∧ objLookup v "error" = none := by
  simp only [jrpcGetStats] at h
  split at h
  · injection h with h'
    subst h'
    exact ⟨rfl, rfl⟩
  all_goals simp at h

/-- C4 (amended): every error response of the JSON-RPC handler is exactly the
object with keys `jsonrpc` and `error` (in that order) and never carries an
`id` field, whether or not the request contained one — the `jrpcError` helper
supports echoing an id, but no call site passes one. -/
theorem c4_error_responses_without_id (qc : QCState) (now : ℚ)
    (parsed : Except Unit JVal) (r : JVal)
    (hr : handleJsonRpcRequest (JRPC_MAP qc now) parsed = .ok r)
    (herr : objLookup r "error" ≠ none) :
    jvalKeys r = ["jsonrpc", "error"] ∧ objLookup r "id" = none := by
  cases parsed with
  | error e =>
    simp only [handleJsonRpcRequest] at hr
    injection hr with hr'
    subst hr'
    exact ⟨rfl, rfl⟩
  | ok jreq =>
    simp only [handleJsonRpcRequest] at hr
    split at hr
    · simp at hr
    · injection hr with hr'
      subst hr'
      exact ⟨rfl, rfl⟩
    · split at hr
      · simp at hr
      · split at hr
        · split at hr
          · simp at hr
          · injection hr with hr'
            subst hr'
            exact ⟨rfl, rfl⟩
          · split at hr
            · simp at hr
            · split at hr
              · simp at hr
              · injection hr with hr'
                subst hr'
                exact ⟨rfl, rfl⟩
              · split at hr
                · rename_i m
                  split at hr
                  · rename_i h hmeth
                    split at hr
                    · simp at hr
                    · split at hr
                      · rename_i v hok
                        rw [JRPC_MAP_some hmeth] at hok
                        injection hr with hr'
                        subst hr'
                        exact absurd (jrpcGetStats_ok_shape hok).2 herr
                      · injection hr with hr'
                        subst hr'
                        exact ⟨rfl, rfl⟩
                    · split at hr
                      · simp at hr
                      · split at hr
                        · rename_i v hok
                          rw [JRPC_MAP_some hmeth] at hok
                          injection hr with hr'
                          subst hr'
                          exact absurd (jrpcGetStats_ok_shape hok).2 herr
                        · injection hr with hr'
                          subst hr'
                          exact ⟨rfl, rfl⟩
                  · simp at hr
                · simp at hr
        · injection hr with hr'
          subst hr'
          exact ⟨rfl, rfl⟩

/-- C4 witness: the amended claim at a concrete error response (empty request
object, answered -32600). -/
theorem c4_error_responses_without_id_witness :
    jvalKeys (jrpcError (-32600) none) = ["jsonrpc", "error"]
    ∧ objLookup (jrpcError (-32600) none) "id" = none :=
  c4_error_responses_without_id qc0 1000 (.ok (.obj [])) (jrpcError (-32600) none) rfl
    (fun h => Option.noConfusion h)

/-- The descending header list at height 0 is the genesis header alone. -/
theorem descendHeaders_zero (qc : QCState) (s : Nat) :
    descendHeaders qc s 0 = [qc.getMinorBlockHeaderByHeight s 0] := by
  simp [descendHeaders, List.range_succ]

/-- The descending header list at height `h+1` starts with the header at
`h+1`. -/
theorem descendHeaders_succ (qc : QCState) (s h : Nat) :
    descendHeaders qc s (h + 1)
      = qc.getMinorBlockHeaderByHeight s (h + 1) :: descendHeaders qc s h := by
  simp [descendHeaders, List.range_succ]

/-- Summing the constant function 1 over a list is its length. -/
theorem sum_map_one (l : List MinorBlockHeader) :
    (l.map fun _ => (1 : Nat)).sum = l.length := by
  induction l with
  | nil => rfl
  | cons a l ih => simp [ih, Nat.add_comm]

/-- On a shard whose header-by-height lookup is consistent up to `T`, the
backward walk starting at the height-`h` header (any `h ≤ T`, any fuel at
least `h`) accumulates `f` exactly over the maximal prefix of the descending
header list whose timestamps are at least the threshold. -/
theorem walkCount_spec (qc : QCState) (s : Nat) (th : ℚ) (f : MinorBlockHeader → Nat)
    (T : Nat) (wf : ∀ k, k < T + 1 → (qc.getMinorBlockHeaderByHeight s k).height = k) :
    ∀ h fuel, h < T + 1 → h ≤ fuel →
      walkCount qc s th f (qc.getMinorBlockHeaderByHeight s h) fuel =
      (((descendHeaders qc s h).takeWhile fun hd => decide (th ≤ hd.createTime)).map f).sum := by
  intro h
  induction h with
  | zero =>
    intro fuel hlt hle
    have hh : (qc.getMinorBlockHeaderByHeight s 0).height = 0 := wf 0 hlt
    rw [descendHeaders_zero]
    by_cases hc : th ≤ (qc.getMinorBlockHeaderByHeight s 0).createTime
    · cases fuel with
      | zero =>
        simp only [walkCount, if_pos hc]
        rw [List.takeWhile_cons_of_pos (by simpa using hc)]
        simp
      | succ fuel =>
        simp only [walkCount, if_pos hc, hh, if_pos rfl]
        rw [List.takeWhile_cons_of_pos (by simpa using hc)]
        simp
    · cases fuel with
      | zero =>
        simp only [walkCount, if_neg hc]
        rw [List.takeWhile_cons_of_neg (by simpa using hc)]
        simp
      | succ fuel =>
        simp only [walkCount, if_neg hc]
        rw [List.takeWhile_cons_of_neg (by simpa using hc)]
        simp
  | succ h ih =>
    intro fuel hlt hle
    have hh : (qc.getMinorBlockHeaderByHeight s (h + 1)).height = h + 1 := wf (h + 1) hlt
    cases fuel with
    | zero => omega
    | succ fuel =>
      rw [descendHeaders_succ]
      by_cases hc : th ≤ (qc.getMinorBlockHeaderByHeight s (h + 1)).createTime
      · simp only [walkCount, if_pos hc, hh, Nat.succ_ne_zero, if_neg, Nat.add_sub_cancel]
        rw [List.takeWhile_cons_of_pos (by simpa using hc)]
        rw [ih fuel (by omega) (by omega)]
        simp
      · simp only [walkCount, if_neg hc]
        rw [List.takeWhile_cons_of_neg (by simpa using hc)]
        simp

/-- C6: on well-formed shards the aggregated window count equals, shard by
shard, the number of headers walking backward from the tip whose creation
timestamp is at least `now - sec` (stopping after genesis or at the first
header below the threshold); on the synthetic §8 chain (`now = 1000`,
headers at `now-10, now-70, now-400` at heights 2, 1, 0) the 60-second
window counts exactly 1 block and the 300-second window exactly 2. -/
theorem c6_window_block_counts :
    (∀ (qc : QCState) (now sec : ℚ),
      (∀ s, s < qc.getShardSize → qc.WellFormedShard s) →
      countMinorBlockHeaderStatsIn qc now sec (fun _ => 1) =
        ((List.range qc.getShardSize).map fun s => specWindowCount qc s (now - sec)).sum)
    ∧ countMinorBlockHeaderStatsIn qc0 1000 60 (fun _ => 1) = 1
    ∧ countMinorBlockHeaderStatsIn qc0 1000 300 (fun _ => 1) = 2 := by
  refine ⟨fun qc now sec hwf => ?_, ?_, ?_⟩
  · unfold countMinorBlockHeaderStatsIn
    congr 1
    apply List.map_congr_left
    intro s hs
    have hs' : s < qc.getShardSize := List.mem_range.mp hs
    obtain ⟨hwf1, hwf2⟩ := hwf s hs'
    have hT : (qc.getMinorBlockHeaderByHeight s (qc.getMinorBlockTip s).height).height
        = (qc.getMinorBlockTip s).height := hwf1 _ (by omega)
    unfold specWindowCount
    conv_lhs => rw [hwf2]
    rw [hT]
    rw [walkCount_spec qc s (now - sec) (fun _ => 1) (qc.getMinorBlockTip s).height hwf1
      (qc.getMinorBlockTip s).height (qc.getMinorBlockTip s).height (by omega) (by omega)]
    exact sum_map_one _
  · have h : (1000 : ℚ) - 60 = 940 := by norm_num
    simp only [countMinorBlockHeaderStatsIn, h]
    decide
  · have h : (1000 : ℚ) - 300 = 700 := by norm_num
    simp only [countMinorBlockHeaderStatsIn, h]
    decide

/-- C6 witness: the general per-shard characterization applied to the
synthetic one-shard chain. -/
theorem c6_window_block_counts_witness :
    countMinorBlockHeaderStatsIn qc0 1000 60 (fun _ => 1) =
      ((List.range qc0.getShardSize).map fun s => specWindowCount qc0 s (1000 - 60)).sum :=
  c6_window_block_counts.1 qc0 1000 60 (by
    intro s hs
    refine ⟨fun h hh => ?_, rfl⟩
    have h3 : h < 3 := by simpa [qc0, hdr2] using hh
    interval_cases h <;> rfl)

/-- The mean of a non-empty list succeeds. -/
theorem pymean_ok {l : List ℚ} (h : l ≠ []) : ∃ q, pymean l = .ok q := by
  cases l with
  | nil => exact absurd rfl h
  | cons a l => exact ⟨_, rfl⟩

/-- C10: a well-formed `{"jsonrpc":"2.0","method":"getStats"}` request on a
state whose engine reports shard size 0 is answered with the -32603 internal
error (the empty-mean failure is caught at the JSON-RPC boundary), while for
every shard size at least 1 the handler replies with the stats object
carrying all nine fields. -/
theorem c10_getstats_empty_shard_failure (qc : QCState) (now : ℚ) :
    (qc.getShardSize = 0 →
      handleJsonRpcRequest (JRPC_MAP qc now) (.ok getStatsReq)
        = .ok (jrpcError (-32603) none))
    ∧ (1 ≤ qc.getShardSize →
      ∃ fs, handleJsonRpcRequest (JRPC_MAP qc now) (.ok getStatsReq) = .ok (.obj fs)
        ∧ fs.map Prod.fst = ["shardSize", "rootHeight", "rootDifficulty", "avgMinorHeight",
            "avgMinorDifficulty", "minorBlocksIn60s", "minorBlocksIn300s",
            "transactionsIn60s", "transactionsIn300s"]) := by
  have hred : handleJsonRpcRequest (JRPC_MAP qc now) (.ok getStatsReq)
      = (match jrpcGetStats qc now none with
          | .ok v => .ok v
          | .error _ => .ok (jrpcError (-32603) none)) := rfl
  constructor
  · intro h0
    have hfail : jrpcGetStats qc now none = .error () := by
      simp [jrpcGetStats, h0, pymean]
    rw [hred, hfail]
  · intro h1
    have hneH : (List.range qc.getShardSize).map
        (fun s => ((qc.getMinorBlockTip s).height : ℚ)) ≠ [] := by
      simp only [ne_eq, List.map_eq_nil_iff, List.range_eq_nil]
      omega
    have hneD : (List.range qc.getShardSize).map
        (fun s => ((qc.getMinorBlockTip s).difficulty : ℚ)) ≠ [] := by
      simp only [ne_eq, List.map_eq_nil_iff, List.range_eq_nil]
      omega
    obtain ⟨qh, hqh⟩ := pymean_ok hneH
    obtain ⟨qd, hqd⟩ := pymean_ok hneD
    have hok : jrpcGetStats qc now none = .ok (.obj
        [("shardSize", .num (qc.getShardSize : ℚ)),
         ("rootHeight", .num (qc.getRootBlockTip.height : ℚ)),
         ("rootDifficulty", .num (qc.getRootBlockTip.difficulty : ℚ)),
         ("avgMinorHeight", .num qh),
         ("avgMinorDifficulty", .num qd),
         ("minorBlocksIn60s", .num ((countMinorBlockHeaderStatsIn qc now 60 fun _ => 1) : ℚ)),
         ("minorBlocksIn300s", .num ((countMinorBlockHeaderStatsIn qc now 300 fun _ => 1) : ℚ)),
         ("transactionsIn60s",
           .num ((countMinorBlockStatsIn qc now 60 qc.getMinorBlockTxListLen) : ℚ)),
         ("transactionsIn300s",
           .num ((countMinorBlockStatsIn qc now 300 qc.getMinorBlockTxListLen) : ℚ))]) := by
      simp only [jrpcGetStats, hqh, hqd]
    refine ⟨_, by rw [hred, hok], ?_⟩
    rfl

/-- C10 witness: both branches, at the shard-size-0 state and at the
one-shard state. -/
theorem c10_getstats_empty_shard_failure_witness :
    handleJsonRpcRequest (JRPC_MAP qcEmpty 0) (.ok getStatsReq)
      = .ok (jrpcError (-32603) none)
    ∧ ∃ fs, handleJsonRpcRequest (JRPC_MAP qc0 1000) (.ok getStatsReq) = .ok (.obj fs)
        ∧ fs.map Prod.fst = ["shardSize", "rootHeight", "rootDifficulty", "avgMinorHeight",
            "avgMinorDifficulty", "minorBlocksIn60s", "minorBlocksIn300s",
            "transactionsIn60s", "transactionsIn300s"] :=
  ⟨(c10_getstats_empty_shard_failure qcEmpty 0).1 rfl,
   (c10_getstats_empty_shard_failure qc0 1000).2 (by decide)⟩

/-- Inversion of a successful `uint32` decode: four bounded big-endian digits
followed by the rest. -/
theorem uint32Decode_inv {bs rest : Bytes} {n : Nat}
    (h : uint32Decode bs = .ok (n, rest)) :
    ∃ b0 b1 b2 b3, bs = b0 :: b1 :: b2 :: b3 :: rest
      ∧ b0 < 256 ∧ b1 < 256 ∧ b2 < 256 ∧ b3 < 256
      ∧ n = ((b0 * 256 + b1) * 256 + b2) * 256 + b3 := by
  match bs with
  | [] => simp [uint32Decode] at h
  | [b0] => simp [uint32Decode] at h
  | [b0, b1] => simp [uint32Decode] at h
  | [b0, b1, b2] => simp [uint32Decode] at h
  | b0 :: b1 :: b2 :: b3 :: r =>
    simp only [uint32Decode] at h
    split at h
    · rename_i hb
      injection h with h'
      injection h' with hn hr
      subst hr
      obtain ⟨hb0, hb1, hb2, hb3⟩ := hb
      exact ⟨b0, b1, b2, b3, rfl, hb0, hb1, hb2, hb3, hn.symm⟩
    · simp at h

/-- Re-encoding a value assembled from four bounded digits reproduces the
digits. -/
theorem uint32Encode_digits {b0 b1 b2 b3 : Nat}
    (h0 : b0 < 256) (h1 : b1 < 256) (h2 : b2 < 256) (h3 : b3 < 256) :
    uint32Encode (((b0 * 256 + b1) * 256 + b2) * 256 + b3) = .ok [b0, b1, b2, b3] := by
  unfold uint32Encode
  rw [if_pos (by omega)]
  have e0 : (((b0 * 256 + b1) * 256 + b2) * 256 + b3) / 2 ^ 24 % 256 = b0 := by omega
  have e1 : (((b0 * 256 + b1) * 256 + b2) * 256 + b3) / 2 ^ 16 % 256 = b1 := by omega
  have e2 : (((b0 * 256 + b1) * 256 + b2) * 256 + b3) / 2 ^ 8 % 256 = b2 := by omega
  have e3 : (((b0 * 256 + b1) * 256 + b2) * 256 + b3) % 256 = b3 := by omega
  rw [e0, e1, e2, e3]

/-- A successful `takeBytes` returns exactly `n` bytes forming a prefix. -/
theorem takeBytes_spec : ∀ {n : Nat} {bs xs rest : Bytes},
    takeBytes n bs = .ok (xs, rest) → xs.length = n ∧ xs ++ rest = bs := by
  intro n
  induction n with
  | zero =>
    intro bs xs rest h
    simp only [takeBytes] at h
    injection h with h'
    injection h' with h1 h2
    subst h1
    subst h2
    exact ⟨rfl, rfl⟩
  | succ n ih =>
    intro bs xs rest h
    cases bs with
    | nil => simp [takeBytes] at h
    | cons b bs =>
      simp only [takeBytes] at h
      split at h
      · rename_i xs' rest' htb
        injection h with h'
        injection h' with h1 h2
        subst h1
        subst h2
        obtain ⟨hl, hp⟩ := ih htb
        exact ⟨by simp [hl], by simp [hp]⟩
      · exact absurd h (by simp)

/-- The `uint8` field round-trips. -/
theorem rt_uint8 (c : TxCodec) (fuel : Nat) : SerRoundTrips c fuel .uint8 := by
  intro bs v rest h
  cases fuel with
  | zero => simp [decodeSer] at h
  | succ fuel =>
    simp only [decodeSer] at h
    split at h
    · exact absurd h (by simp)
    · rename_i n r hu
      injection h with h'
      injection h' with hv hr
      subst hv
      subst hr
      cases bs with
      | nil => simp [uint8Decode] at hu
      | cons b bs' =>
        simp only [uint8Decode] at hu
        split at hu
        · rename_i hb
          injection hu with hu'
          injection hu' with h1 h2
          subst h1
          subst h2
          exact ⟨[b], by simp [encodeSer, uint8Encode, hb], rfl⟩
        · exact absurd hu (by simp)

/-- The `uint32` field round-trips. -/
theorem rt_uint32 (c : TxCodec) (fuel : Nat) : SerRoundTrips c fuel .uint32 := by
  intro bs v rest h
  cases fuel with
  | zero => simp [decodeSer] at h
  | succ fuel =>
    simp only [decodeSer] at h
    split at h
    · exact absurd h (by simp)
    · rename_i n r hu
      injection h with h'
      injection h' with hv hr
      subst hv
      subst hr
      obtain ⟨b0, b1, b2, b3, hbs, hb0, hb1, hb2, hb3, hn⟩ := uint32Decode_inv hu
      subst hbs
      refine ⟨[b0, b1, b2, b3], ?_, rfl⟩
      simp only [encodeSer, hn, uint32Encode_digits hb0 hb1 hb2 hb3]

/-- The `address` field round-trips. -/
theorem rt_address (c : TxCodec) (fuel : Nat) : SerRoundTrips c fuel .address := by
  intro bs v rest h
  cases fuel with
  | zero => simp [decodeSer] at h
  | succ fuel =>
    simp only [decodeSer] at h
    split at h
    · exact absurd h (by simp)
    · rename_i xs r htb
      injection h with h'
      injection h' with hv hr
      subst hv
      subst hr
      obtain ⟨hl, hp⟩ := takeBytes_spec htb
      exact ⟨xs, by simp [encodeSer, hl], hp⟩

/-- The opaque `transaction` field round-trips whenever the codec does. -/
theorem rt_transaction {c : TxCodec} (hc : TxCodecRT c) (fuel : Nat) :
    SerRoundTrips c fuel .transaction := by
  intro bs v rest h
  cases fuel with
  | zero => simp [decodeSer] at h
  | succ fuel =>
    simp only [decodeSer] at h
    split at h
    · exact absurd h (by simp)
    · rename_i t r hdec
      injection h with h'
      injection h' with hv hr
      subst hv
      subst hr
      obtain ⟨p, hp, hpp⟩ := hc _ _ _ hdec
      exact ⟨p, by simp [encodeSer, hp], hpp⟩

/-- The length-prefixed byte blob round-trips. -/
theorem rt_bytesPrefixed (c : TxCodec) (fuel : Nat) : SerRoundTrips c fuel .bytesPrefixed := by
  intro bs v rest h
  cases fuel with
  | zero => simp [decodeSer] at h
  | succ fuel =>
    simp only [decodeSer] at h
    split at h
    · exact absurd h (by simp)
    · rename_i n r hu
      split at h
      · exact absurd h (by simp)
      · rename_i xs r' htb
        injection h with h'
        injection h' with hv hr
        subst hv
        subst hr
        obtain ⟨b0, b1, b2, b3, hbs, hb0, hb1, hb2, hb3, hn⟩ := uint32Decode_inv hu
        obtain ⟨hl, hp⟩ := takeBytes_spec htb
        refine ⟨[b0, b1, b2, b3] ++ xs, ?_, ?_⟩
        · simp only [encodeSer, hl, hn, uint32Encode_digits hb0 hb1 hb2 hb3]
        · subst hbs
          simp [hp]

/-- Repetition decoding round-trips and yields exactly `n` elements when the
element serializer round-trips. -/
theorem decodeRep_rt {c : TxCodec} {fuel : Nat} {elem : Ser}
    (he : SerRoundTrips c fuel elem) :
    ∀ n bs vs rest, decodeRep (decodeSer c fuel elem) n bs = .ok (vs, rest) →
      vs.length = n
      ∧ ∃ p, encodeRep (encodeSer c fuel elem) vs = .ok p ∧ p ++ rest = bs := by
  intro n
  induction n with
  | zero =>
    intro bs vs rest h
    simp only [decodeRep] at h
    injection h with h'
    injection h' with h1 h2
    subst h1
    subst h2
    exact ⟨rfl, [], rfl, rfl⟩
  | succ n ih =>
    intro bs vs rest h
    simp only [decodeRep] at h
    split at h
    · exact absurd h (by simp)
    · rename_i v r hdec
      split at h
      · exact absurd h (by simp)
      · rename_i vs' r' hrep
        injection h with h'
        injection h' with h1 h2
        subst h1
        subst h2
        obtain ⟨hlen, p2, hp2, hpp2⟩ := ih r vs' _ hrep
        obtain ⟨p1, hp1, hpp1⟩ := he _ _ _ hdec
        refine ⟨by simp [hlen], p1 ++ p2, ?_, ?_⟩
        · simp only [encodeRep, hp1, hp2]
        · rw [List.append_assoc, hpp2, hpp1]

/-- The length-prefixed list combinator round-trips when its element does. -/
theorem rt_listPrefixed {c : TxCodec} {fuel : Nat} {elem : Ser}
    (he : SerRoundTrips c fuel elem) :
    SerRoundTrips c (fuel + 1) (.listPrefixed elem) := by
  intro bs v rest h
  simp only [decodeSer] at h
  split at h
  · exact absurd h (by simp)
  · rename_i n r hu
    split at h
    · exact absurd h (by simp)
    · rename_i vs r' hrep
      injection h with h'
      injection h' with hv hr
      subst hv
      subst hr
      obtain ⟨b0, b1, b2, b3, hbs, hb0, hb1, hb2, hb3, hn⟩ := uint32Decode_inv hu
      obtain ⟨hlen, p, hp, hpp⟩ := decodeRep_rt he n r vs _ hrep
      refine ⟨[b0, b1, b2, b3] ++ p, ?_, ?_⟩
      · simp only [encodeSer, hlen, hn, uint32Encode_digits hb0 hb1 hb2 hb3, hp]
      · subst hbs
        simp [hpp]

/-- The nested record combinator round-trips when its `FIELDS` tuple does. -/
theorem rt_record {c : TxCodec} {fuel : Nat} {es : List PyEntry}
    (hf : FieldsRoundTrip c fuel es) :
    SerRoundTrips c (fuel + 1) (.record es) := by
  intro bs v rest h
  simp only [decodeSer] at h
  split at h
  · exact absurd h (by simp)
  · rename_i fs r hflds
    injection h with h'
    injection h' with hv hr
    subst hv
    subst hr
    obtain ⟨p, hp, hpp⟩ := hf _ _ _ hflds
    exact ⟨p, by simp only [encodeSer]; exact hp, hpp⟩

/-- An attribute absent from the declared names of a `FIELDS` tuple does not
change its encoding. -/
theorem encodeFieldsWith_skip {enc : Ser → Val → Except Unit Bytes}
    {name : String} {v : Val} {fs : List (String × Val)} :
    ∀ {es : List PyEntry}, name ∉ fieldNames es →
      encodeFieldsWith enc es ((name, v) :: fs) = encodeFieldsWith enc es fs := by
  intro es
  induction es with
  | nil => intro _; rfl
  | cons e es ih =>
    intro h
    cases e with
    | field n' s' =>
      have hn : ¬(name = n') := by
        intro he
        exact h (by simp [fieldNames, he])
      have htail : name ∉ fieldNames es := by
        intro hm
        exact h (by simp [fieldNames, hm])
      simp only [encodeFieldsWith, pyLookup, if_neg hn, ih htail]
    | bareStr s => simp [encodeFieldsWith]
    | bareSer s => simp [encodeFieldsWith]

/-- The empty `FIELDS` tuple round-trips. -/
theorem fields_nil (c : TxCodec) (fuel : Nat) : FieldsRoundTrip c fuel [] := by
  intro bs fs rest h
  simp only [decodeFieldsWith] at h
  injection h with h'
  injection h' with h1 h2
  subst h1
  subst h2
  exact ⟨[], rfl, rfl⟩

/-- Looking up the key at the head of an association list. -/
theorem pyLookup_cons_self {α : Type} (name : String) (v : α) (fs : List (String × α)) :
    pyLookup ((name, v) :: fs) name = some v := by
  simp [pyLookup]

/-- A well-formed `FIELDS` entry with a fresh name preserves the round trip. -/
theorem fields_cons {c : TxCodec} {fuel : Nat} {name : String} {s : Ser}
    {es : List PyEntry} (hname : name ∉ fieldNames es)
    (hs : SerRoundTrips c fuel s) (hes : FieldsRoundTrip c fuel es) :
    FieldsRoundTrip c fuel (.field name s :: es) := by
  intro bs fs rest h
  obtain ⟨v, r1, fs2, r2, h1, h2, hout⟩ := decodeFieldsWith_cons_inv h
  injection hout with ho1 ho2
  subst ho1
  subst ho2
  obtain ⟨p1, hp1, hpp1⟩ := hs _ _ _ h1
  obtain ⟨p2, hp2, hpp2⟩ := hes _ _ _ h2
  refine ⟨p1 ++ p2, ?_, ?_⟩
  · simp only [encodeFieldsWith]
    rw [pyLookup_cons_self]
    simp only [hp1, encodeFieldsWith_skip hname, hp2]
  · rw [List.append_assoc, hpp2, hpp1]

/-- Message-level round trip: a fully-consuming decode re-encodes to the
original bytes whenever the `FIELDS` tuple round-trips. -/
theorem deserializeMsg_rt {c : TxCodec} {fuel : Nat} {es : List PyEntry}
    (hf : FieldsRoundTrip c fuel es) :
    ∀ bs fs, deserializeMsg c fuel es bs = .ok fs → serializeMsg c fuel es fs = .ok bs := by
  intro bs fs h
  unfold deserializeMsg at h
  split at h
  · rename_i fs' heq
    injection h with h'
    subst h'
    obtain ⟨p, hp, hpp⟩ := hf _ _ _ heq
    rw [List.append_nil] at hpp
    subst hpp
    exact hp
  · exact absurd h (by simp)
  · exact absurd h (by simp)

/-- The `NewTransaction` record's `FIELDS` tuple round-trips whenever the
transaction codec does. -/
theorem newTransaction_fields_rt {c : TxCodec} (hc : TxCodecRT c) (fuel : Nat) :
    FieldsRoundTrip c fuel NewTransaction.FIELDS :=
  fields_cons (by decide) (rt_uint32 c fuel)
    (fields_cons (by decide) (rt_transaction hc fuel) (fields_nil c fuel))

/-- C8 supporting theorem: given a round-tripping transaction codec, each of
the seven well-formed §4.1 message schemas satisfies
`encode (decode bytes) = bytes` for every byte string that decodes (fully
consuming) — at every sufficient fuel — while the malformed
`AddNewTransactionListResponse.FIELDS` never decodes any byte string at all. -/
theorem wireSchemas_roundTrip {c : TxCodec} (hc : TxCodecRT c) (fuel : Nat) :
    (∀ bs fs, deserializeMsg c (fuel + 2) GetBlockTemplateRequest.FIELDS bs = .ok fs →
      serializeMsg c (fuel + 2) GetBlockTemplateRequest.FIELDS fs = .ok bs)
    ∧ (∀ bs fs, deserializeMsg c (fuel + 2) GetBlockTemplateResponse.FIELDS bs = .ok fs →
      serializeMsg c (fuel + 2) GetBlockTemplateResponse.FIELDS fs = .ok bs)
    ∧ (∀ bs fs, deserializeMsg c (fuel + 2) SubmitNewBlockRequest.FIELDS bs = .ok fs →
      serializeMsg c (fuel + 2) SubmitNewBlockRequest.FIELDS fs = .ok bs)
    ∧ (∀ bs fs, deserializeMsg c (fuel + 2) SubmitNewBlockResponse.FIELDS bs = .ok fs →
      serializeMsg c (fuel + 2) SubmitNewBlockResponse.FIELDS fs = .ok bs)
    ∧ (∀ bs fs, deserializeMsg c (fuel + 2) AddNewTransactionListRequest.FIELDS bs = .ok fs →
      serializeMsg c (fuel + 2) AddNewTransactionListRequest.FIELDS fs = .ok bs)
    ∧ (∀ bs fs, deserializeMsg c (fuel + 2) JsonRpcRequest.FIELDS bs = .ok fs →
      serializeMsg c (fuel + 2) JsonRpcRequest.FIELDS fs = .ok bs)
    ∧ (∀ bs fs, deserializeMsg c (fuel + 2) JsonRpcResponse.FIELDS bs = .ok fs →
      serializeMsg c (fuel + 2) JsonRpcResponse.FIELDS fs = .ok bs)
    ∧ (∀ bs, deserializeMsg c (fuel + 2) AddNewTransactionListResponse.FIELDS bs
        = .error ()) := by
  refine ⟨deserializeMsg_rt ?_, deserializeMsg_rt ?_, deserializeMsg_rt ?_,
    deserializeMsg_rt ?_, deserializeMsg_rt ?_, deserializeMsg_rt ?_,
    deserializeMsg_rt ?_, fun bs => rfl⟩
  · exact fields_cons (by decide) (rt_address c _)
      (fields_cons (by decide) (rt_uint8 c _)
        (fields_cons (by decide) (rt_listPrefixed (rt_uint32 c (fuel + 1)))
          (fields_nil c _)))
  · exact fields_cons (by decide) (rt_uint8 c _)
      (fields_cons (by decide) (rt_bytesPrefixed c _) (fields_nil c _))
  · exact fields_cons (by decide) (rt_uint8 c _)
      (fields_cons (by decide) (rt_bytesPrefixed c _) (fields_nil c _))
  · exact fields_cons (by decide) (rt_uint8 c _)
      (fields_cons (by decide) (rt_bytesPrefixed c _) (fields_nil c _))
  · exact fields_cons (by decide)
      (rt_listPrefixed (rt_record (newTransaction_fields_rt hc fuel)))
      (fields_nil c _)
  · exact fields_cons (by decide) (rt_bytesPrefixed c _) (fields_nil c _)
  · exact fields_cons (by decide) (rt_bytesPrefixed c _) (fields_nil c _)
